import Mathlib

/-!
Verification development for the HFT cross-venue arbitrage scanner.

The definitions below are a shallow embedding of the Python source:
prices and times are rationals, Python dicts become association lists
(insertion order preserved, unique keys), fallible code returns Option,
and the stateful RPC failover becomes explicit state passing.
-/

namespace HFT

/-- Chain identifiers (`config/chains.py`, `ChainId`). -/
inductive ChainId where
  | ETHEREUM | BSC | POLYGON | ARBITRUM | OPTIMISM | AVALANCHE | FANTOM | BASE
  | ZKSYNC | LINEA | SCROLL | GNOSIS | CRONOS | MOONBEAM | CELO | KAVA
deriving DecidableEq, Repr

/-- Price data from a CEX (`ccxt_fetcher.py`, `CEXPrice`); `timestamp` is in
milliseconds as reported by CCXT, 0 when the venue reported none. -/
structure CEXPrice where
  exchange : String
  symbol : String
  bid : ℚ
  ask : ℚ
  mid : ℚ
  timestamp : ℤ
  volume24h : Option ℚ := none
deriving DecidableEq, Repr

/-- A raw CCXT ticker as consumed by `fetch_ticker_batch`: every field may be
missing (`ticker.get(...)`). -/
structure Ticker where
  bid : Option ℚ
  ask : Option ℚ
  timestamp : Option ℤ
  quoteVolume : Option ℚ
deriving DecidableEq, Repr

/-- `ccxt_fetcher.py` lines 284-300: a ticker becomes a `CEXPrice` only when
bid and ask are present and positive; a missing timestamp becomes 0 and a
missing quote volume stays `None`. -/
def tickerToCEXPrice (exchangeId symbol : String) (t : Ticker) : Option CEXPrice :=
  let bid := t.bid.getD 0
  let ask := t.ask.getD 0
  if bid ≤ 0 ∨ ask ≤ 0 then none
  else some { exchange := exchangeId, symbol := symbol, bid := bid, ask := ask,
              mid := (bid + ask) / 2, timestamp := t.timestamp.getD 0,
              volume24h := t.quoteVolume }

/-- Aggregated DEX quote (`aggregator.py`, `DEXQuote`). `feePercent` is the
router fee as a percentage (e.g. 0.3). -/
structure DEXQuote where
  dexName : String
  chain : ChainId
  chainName : String
  baseSymbol : String
  quoteSymbol : String
  bid : ℚ
  ask : ℚ
  feePercent : ℚ
  timestamp : ℚ := 0
deriving DecidableEq, Repr

/-- The tag of a unified price source (`arbitrage_engine.py`, `PriceSource.source_type`). -/
inductive SourceType where
  | CEX | DEX
deriving DecidableEq, Repr

/-- Unified price source (`arbitrage_engine.py`, `PriceSource`). -/
structure PriceSource where
  sourceType : SourceType
  sourceName : String
  chain : Option ChainId := none
  bid : ℚ := 0
  ask : ℚ := 0
  timestamp : ℚ := 0
  volume24h : Option ℚ := none
deriving DecidableEq, Repr

instance : Inhabited PriceSource := ⟨{ sourceType := .CEX, sourceName := "" }⟩

/-- The volume reliability test of `_build_price_matrix` (line 181): drop only
when a 24h volume is reported and is below 50 000. -/
def volumeTooLow (vol : Option ℚ) : Bool :=
  match vol with
  | some v => decide (v < 50000)
  | none => false

/-- `_build_price_matrix` lines 172-191: CEX branch of the reliability filter.
CCXT timestamps are milliseconds, hence the division by 1000. -/
def cexToSource (now : ℚ) (p : CEXPrice) : Option PriceSource :=
  if 600 < now - (p.timestamp : ℚ) / 1000 then none
  else if volumeTooLow p.volume24h then none
  else some { sourceType := .CEX, sourceName := p.exchange, chain := none,
              bid := p.bid, ask := p.ask, timestamp := (p.timestamp : ℚ) / 1000,
              volume24h := p.volume24h }

/-- The engine's fee fold for a DEX quote (`_build_price_matrix` line 206). -/
def engineDexBid (q : DEXQuote) : ℚ := q.bid * (1 - q.feePercent / 100)

/-- The engine's fee fold for a DEX quote (`_build_price_matrix` line 207). -/
def engineDexAsk (q : DEXQuote) : ℚ := q.ask * (1 + q.feePercent / 100)

/-- `_build_price_matrix` lines 198-216: DEX branch of the reliability filter;
the staleness test only fires when the quote carries a positive timestamp. -/
def dexToSource (now : ℚ) (q : DEXQuote) : Option PriceSource :=
  if 0 < q.timestamp ∧ 10 < now - q.timestamp then none
  else some { sourceType := .DEX, sourceName := q.dexName, chain := some q.chain,
              bid := engineDexBid q, ask := engineDexAsk q,
              timestamp := q.timestamp, volume24h := none }

/-- Dict lookup on an association list (Python dict access, unique keys). -/
def lookupEntries {α : Type} (m : List (String × List α)) (k : String) : List α :=
  match m.find? (fun e => e.1 == k) with
  | some e => e.2
  | none => []

/-- Key order of the built matrix: CEX dict keys first, then DEX-only keys, in
insertion order, mirroring the two insertion loops of `_build_price_matrix`. -/
def matrixKeys (cex : List (String × List CEXPrice)) (dex : List (String × List DEXQuote)) :
    List String :=
  cex.map Prod.fst ++ (dex.map Prod.fst).filter (fun k => ¬ (cex.map Prod.fst).contains k)

/-- `ArbitrageEngine._build_price_matrix`: per symbol, the surviving CEX
sources followed by the surviving fee-folded DEX sources. -/
def buildPriceMatrix (now : ℚ) (cex : List (String × List CEXPrice))
    (dex : List (String × List DEXQuote)) : List (String × List PriceSource) :=
  (matrixKeys cex dex).map fun k =>
    (k, (lookupEntries cex k).filterMap (cexToSource now) ++
        (lookupEntries dex k).filterMap (dexToSource now))

/-- `config/settings.py`: minimum net profit in USD for an opportunity. -/
def MIN_PROFIT_USD : ℚ := 5

/-- `config/settings.py`: reference trade size in USD. -/
def DEFAULT_TRADE_SIZE_USD : ℚ := 1000

/-- `config/settings.py`: scan loop interval in seconds. -/
def SCAN_INTERVAL_SECONDS : ℚ := 1 / 2

/-- Profit tier (`config/settings.py`, `ProfitLevel`; colors and symbols are
presentation-only and omitted). -/
structure ProfitLevel where
  threshold : ℚ
  name : String
deriving DecidableEq, Repr

/-- `config/settings.py`: the static descending tier table. -/
def PROFIT_LEVELS : List ProfitLevel :=
  [⟨50, "CRITICAL"⟩, ⟨20, "HIGH"⟩, ⟨5, "MEDIUM"⟩]

/-- `config/settings.py`, `get_profit_level`: first tier whose threshold the
profit meets, else `None`. -/
def getProfitLevel (profitUsd : ℚ) : Option ProfitLevel :=
  PROFIT_LEVELS.find? (fun level => decide (level.threshold ≤ profitUsd))

/-- `config/fees.py`, `get_withdrawal_fee`: static per-chain withdrawal fee in
USD (`None` chain means 0; every configured chain is in the table). -/
def getWithdrawalFee (chain : Option ChainId) : ℚ :=
  match chain with
  | none => 0
  | some c =>
    match c with
    | .ETHEREUM => 15
    | .BSC => 1
    | .POLYGON => 1 / 2
    | .ARBITRUM => 1
    | .OPTIMISM => 1
    | .AVALANCHE => 1 / 2
    | .FANTOM => 1 / 2
    | .BASE => 1 / 2
    | .ZKSYNC => 1
    | .LINEA => 1
    | .SCROLL => 1
    | .GNOSIS => 1 / 10
    | .CRONOS => 1 / 2
    | .MOONBEAM => 1 / 2
    | .CELO => 1 / 10
    | .KAVA => 1 / 5

/-- `ArbitrageEngine._get_fallback_gas_cost`. -/
def getFallbackGasCost (c : ChainId) : ℚ :=
  match c with
  | .ETHEREUM => 25
  | .BSC => 3 / 10
  | .ARBITRUM | .OPTIMISM | .BASE | .LINEA | .SCROLL | .ZKSYNC => 1 / 2
  | .POLYGON | .AVALANCHE | .FANTOM => 1 / 10
  | _ => 1 / 5

/-- Gas contribution of one side (`_estimate_gas_cost`): a DEX source with a
chain costs the estimated (or fallback) swap cost, anything else 0 here. -/
def dexSideGas (gas : ChainId → Option ℚ) (s : PriceSource) : ℚ :=
  match s.sourceType, s.chain with
  | .DEX, some c => (gas c).getD (getFallbackGasCost c)
  | _, _ => 0

/-- CEX trading-fee contribution of one side (`_estimate_gas_cost`): 0.1 % of
the trade size per CEX side. -/
def cexSideFee (s : PriceSource) : ℚ :=
  match s.sourceType with
  | .CEX => DEFAULT_TRADE_SIZE_USD * (1 / 1000)
  | .DEX => 0

/-- `ArbitrageEngine._estimate_gas_cost`. -/
def estimateGasCost (gas : ChainId → Option ℚ) (buy sell : PriceSource) : ℚ :=
  dexSideGas gas buy + dexSideGas gas sell + cexSideFee buy + cexSideFee sell

/-- `ArbitrageEngine._estimate_withdrawal_fee`. -/
def estimateWithdrawalFee (buy sell : PriceSource) : ℚ :=
  (if buy.sourceType = .CEX ∧ sell.sourceType = .DEX then getWithdrawalFee sell.chain else 0) +
  (if buy.sourceType = .CEX ∧ sell.sourceType = .CEX then 5 else 0)

/-- Python `str.lower()` restricted to what venue identifiers use. -/
def lowerName (s : String) : String := String.mk (s.data.map Char.toLower)

/-- `ArbitrageEngine._calculate_slippage_price`: DEX prices pass through
(impact already embedded), CEX prices get a fixed factor (0.02 % for the two
top-tier venues, 0.05 % otherwise), up for buys and down for sells. -/
def calculateSlippagePrice (price : ℚ) (source : PriceSource) (isBuy : Bool) : ℚ :=
  match source.sourceType with
  | .DEX => price
  | .CEX =>
    let factor : ℚ :=
      if lowerName source.sourceName = "binance" ∨ lowerName source.sourceName = "coinbase"
      then 2 / 10000 else 5 / 10000
    if isBuy then price * (1 + factor) else price * (1 - factor)

/-- Arbitrage opportunity (`arbitrage_engine.py`, `ArbitrageOpportunity`); the
per-construction wall-clock timestamp is a collaborator and not modelled. -/
structure ArbitrageOpportunity where
  symbol : String
  buySource : PriceSource
  sellSource : PriceSource
  buyPrice : ℚ
  sellPrice : ℚ
  spreadPct : ℚ
  grossProfitUsd : ℚ
  gasCostUsd : ℚ
  withdrawalFeeUsd : ℚ
  netProfitUsd : ℚ
  profitLevel : Option ProfitLevel
deriving DecidableEq, Repr

/-- Effective buy price of the pair loop (`_find_opportunities` line 337):
the ask, slippage-adjusted upwards. -/
def effBuyPrice (s : PriceSource) : ℚ := calculateSlippagePrice s.ask s true

/-- Effective sell price of the pair loop (`_find_opportunities` line 339):
the bid, slippage-adjusted downwards. -/
def effSellPrice (s : PriceSource) : ℚ := calculateSlippagePrice s.bid s false

/-- `_find_opportunities` line 345: `(sell − buy) / buy × 100`. -/
def pairSpreadPct (buy sell : PriceSource) : ℚ :=
  (effSellPrice sell - effBuyPrice buy) / effBuyPrice buy * 100

/-- `_find_opportunities` lines 351-359: gross profit at the default trade
size minus gas/trading-fee cost minus withdrawal fee. -/
def pairNetProfit (gas : ChainId → Option ℚ) (buy sell : PriceSource) : ℚ :=
  pairSpreadPct buy sell / 100 * DEFAULT_TRADE_SIZE_USD
    - estimateGasCost gas buy sell - estimateWithdrawalFee buy sell

/-- The opportunity record `_find_opportunities` appends for an ordered
(buy, sell) pair that passes every guard (lines 367-379). -/
def mkOpportunity (gas : ChainId → Option ℚ) (symbol : String) (buy sell : PriceSource) :
    ArbitrageOpportunity :=
  { symbol := symbol, buySource := buy, sellSource := sell,
    buyPrice := effBuyPrice buy, sellPrice := effSellPrice sell,
    spreadPct := pairSpreadPct buy sell,
    grossProfitUsd := pairSpreadPct buy sell / 100 * DEFAULT_TRADE_SIZE_USD,
    gasCostUsd := estimateGasCost gas buy sell,
    withdrawalFeeUsd := estimateWithdrawalFee buy sell,
    netProfitUsd := pairNetProfit gas buy sell,
    profitLevel := getProfitLevel (pairNetProfit gas buy sell) }

/-- Loop body of `_find_opportunities` for one ordered pair: slippage-adjusted
prices, positivity guard, spread window (0, 100], cost model, threshold. -/
def evaluatePair (gas : ChainId → Option ℚ) (symbol : String) (buy sell : PriceSource) :
    Option ArbitrageOpportunity :=
  if effBuyPrice buy ≤ 1 / 1000000 ∨ effSellPrice sell ≤ 1 / 1000000 then none
  else if pairSpreadPct buy sell ≤ 0 ∨ 100 < pairSpreadPct buy sell then none
  else if pairNetProfit gas buy sell < MIN_PROFIT_USD then none
  else some (mkOpportunity gas symbol buy sell)

/-- The index pairs visited by the two nested `enumerate` loops of
`_find_opportunities`: all ordered (i, j) with i ≠ j, i outer, j inner. -/
def orderedIndexPairs (k : ℕ) : List (ℕ × ℕ) :=
  (List.range k).flatMap fun i =>
    ((List.range k).filter (fun j => decide (j ≠ i))).map (fun j => (i, j))

/-- Opportunities contributed by one matrix entry (`_find_opportunities`
lines 325-379): symbols with fewer than two sources are skipped. -/
def entryOpportunities (gas : ChainId → Option ℚ) (symbol : String)
    (sources : List PriceSource) : List ArbitrageOpportunity :=
  if sources.length < 2 then []
  else (orderedIndexPairs sources.length).filterMap fun ij =>
    evaluatePair gas symbol (sources.getD ij.1 default) (sources.getD ij.2 default)

/-- Stable descending insertion by net profit: the new element goes before an
existing one only when strictly more profitable (Python `list.sort` is
stable). -/
def insertByNetDesc (sorted : List ArbitrageOpportunity) (a : ArbitrageOpportunity) :
    List ArbitrageOpportunity :=
  match sorted with
  | [] => [a]
  | b :: rest =>
    if b.netProfitUsd < a.netProfitUsd then a :: b :: rest
    else b :: insertByNetDesc rest a

/-- `opportunities.sort(key=..., reverse=True)`: stable sort by net profit
descending. -/
def sortByNetDesc (l : List ArbitrageOpportunity) : List ArbitrageOpportunity :=
  l.foldl insertByNetDesc []

/-- `ArbitrageEngine._find_opportunities`. -/
def findOpportunities (gas : ChainId → Option ℚ)
    (priceMatrix : List (String × List PriceSource)) : List ArbitrageOpportunity :=
  sortByNetDesc (priceMatrix.flatMap fun e => entryOpportunities gas e.1 e.2)

/-- `aggregator.py` line 152: decimal-adjusted spot price from constant-product
reserves, `(res_out / 10^qd) / (res_in / 10^bd)`. -/
def reservePrice (resIn resOut : ℕ) (baseDec quoteDec : ℕ) : ℚ :=
  ((resOut : ℚ) / 10 ^ quoteDec) / ((resIn : ℚ) / 10 ^ baseDec)

/-- `aggregator.py` line 192: constant-product impact of the sized input,
`amount_in / (reserve_in + amount_in)` (reserve-side units). -/
def sellImpact (resIn amountIn : ℕ) : ℚ :=
  (amountIn : ℚ) / ((resIn : ℚ) + (amountIn : ℚ))

/-- `aggregator.py` line 194: pre-fee bid, `spot * (1 - impact)`. -/
def dexBidPrice (resIn resOut baseDec quoteDec amountIn : ℕ) : ℚ :=
  reservePrice resIn resOut baseDec quoteDec * (1 - sellImpact resIn amountIn)

/-- `aggregator.py` line 195: pre-fee ask, `spot * (1 + impact)`. -/
def dexAskPrice (resIn resOut baseDec quoteDec amountIn : ℕ) : ℚ :=
  reservePrice resIn resOut baseDec quoteDec * (1 + sellImpact resIn amountIn)

/-- Single-venue triangular opportunity (`triangular.py`,
`TriangularOpportunity`). In the Python source the `timestamp` field default
`datetime.now()` is evaluated once, when the dataclass is defined; the
embedding therefore threads that one class-definition instant explicitly. -/
structure TriangularOpportunity where
  exchange : String
  symbolPath : List String
  tradePath : List String
  expectedProfitPct : ℚ
  timestamp : ℚ
deriving DecidableEq, Repr

/-- `TriangularStrategy.min_profit_pct` (0.1 %). -/
def MIN_TRIANGULAR_PROFIT_PCT : ℚ := 1 / 10

/-- The fixed hub list of `TriangularStrategy.find_opportunities`. -/
def HUBS : List String := ["USDT", "USDC", "BTC", "ETH"]

/-- Dict insert-or-overwrite preserving insertion order (Python
`d[k] = v`). -/
def assocUpsert {α : Type} (m : List (String × α)) (k : String) (v : α) :
    List (String × α) :=
  match m with
  | [] => [(k, v)]
  | (k0, v0) :: rest =>
    if k0 = k then (k, v) :: rest else (k0, v0) :: assocUpsert rest k v

/-- Dict lookup (first match; keys kept unique by `assocUpsert`). -/
def assocLookup {α : Type} (m : List (String × α)) (k : String) : Option α :=
  match m.find? (fun e => e.1 == k) with
  | some e => some e.2
  | none => none

/-- `triangular.py` lines 34-39: group the CEX snapshot into per-exchange
symbol → price dicts (later occurrences of a symbol overwrite). -/
def groupByExchange (cexPrices : List (String × List CEXPrice)) :
    List (String × List (String × CEXPrice)) :=
  cexPrices.foldl
    (fun acc e =>
      e.2.foldl
        (fun acc2 p =>
          let inner := (assocLookup acc2 p.exchange).getD []
          assocUpsert acc2 p.exchange (assocUpsert inner e.1 p))
        acc)
    []

/-- First-occurrence deduplication (deterministic stand-in for Python's set
iteration order, which no claim here depends on). -/
def dedupFirst {α : Type} [BEq α] (l : List α) : List α :=
  l.foldl (fun acc s => if acc.contains s then acc else acc ++ [s]) []

/-- Python `s.split('/')[0]`: the characters before the first slash. -/
def symbolBase (s : String) : String :=
  String.mk (s.data.takeWhile fun c => c ≠ '/')

/-- `triangular.py` lines 51-55: base assets of the venue's markets, the part
before the slash of every symbol containing one. -/
def extractBases (symbols : List String) : List String :=
  dedupFirst (symbols.filterMap fun s =>
    if s.data.contains '/' then some (symbolBase s) else none)

/-- `triangular.py` lines 60-63: hub pairs `(HUBS[i], HUBS[j])` with `i < j`. -/
def hubPairs : List (String × String) :=
  (List.range HUBS.length).flatMap fun i =>
    ((List.range HUBS.length).filter (fun j => decide (i < j))).map
      (fun j => (HUBS.getD i "", HUBS.getD j ""))

/-- `triangular.py` lines 70-114 for one (base, h1, h2) triple: requires the
three markets `base/h1`, `h1/h2`, `base/h2`; computes the forward loop
`bid(p1) / ask(p2) / ask(p3)` and the reverse loop `bid(p3) * bid(p2) /
ask(p1)`. A zero divisor raises `ZeroDivisionError` in the source: a zero
`ask(p2)` or `ask(p3)` aborts the whole triple, while a zero `ask(p1)` aborts
only the reverse loop (the forward result was already appended). -/
def tripleOpportunities (classDefTime : ℚ) (exchange : String)
    (markets : List (String × CEXPrice)) (base h1 h2 : String) :
    List TriangularOpportunity :=
  let p1 := base ++ "/" ++ h1
  let p2 := h1 ++ "/" ++ h2
  let p3 := base ++ "/" ++ h2
  match assocLookup markets p1, assocLookup markets p2, assocLookup markets p3 with
  | some m1, some m2, some m3 =>
    if m2.ask = 0 ∨ m3.ask = 0 then []
    else
      let res3 := m1.bid / m2.ask / m3.ask
      let profit := (res3 - 1) * 100
      let forward :=
        if MIN_TRIANGULAR_PROFIT_PCT < profit then
          [{ exchange := exchange, symbolPath := [p1, p2, p3],
             tradePath := ["SELL", "BUY", "BUY"],
             expectedProfitPct := profit, timestamp := classDefTime }]
        else []
      let reverse :=
        if m1.ask = 0 then []
        else
          let rres3 := m3.bid * m2.bid / m1.ask
          let rprofit := (rres3 - 1) * 100
          if MIN_TRIANGULAR_PROFIT_PCT < rprofit then
            [{ exchange := exchange, symbolPath := [p3, p2, p1],
               tradePath := ["SELL", "SELL", "BUY"],
               expectedProfitPct := rprofit, timestamp := classDefTime }]
          else []
      forward ++ reverse
  | _, _, _ => []

/-- `TriangularStrategy.find_opportunities`, parameterised by the dataclass's
one-time default timestamp. -/
def triangularFindOpportunities (classDefTime : ℚ)
    (cexPrices : List (String × List CEXPrice)) : List TriangularOpportunity :=
  (groupByExchange cexPrices).flatMap fun ex =>
    (extractBases (ex.2.map Prod.fst)).flatMap fun base =>
      if HUBS.contains base then []
      else hubPairs.flatMap fun hp =>
        tripleOpportunities classDefTime ex.1 ex.2 base hp.1 hp.2

/-- RPC endpoint health record (`rpc_manager.py`, `RPCEndpointHealth`). -/
structure RPCEndpointHealth where
  url : String
  failures : ℕ := 0
  lastFailure : ℚ := 0
  lastSuccess : ℚ := 0
  avgLatencyMs : ℚ := 0
deriving DecidableEq, Repr

instance : Inhabited RPCEndpointHealth := ⟨{ url := "" }⟩

/-- `RPCEndpointHealth.is_healthy`: unhealthy iff 3+ failures with the last
one inside the 60 s quarantine window. -/
def isHealthy (now : ℚ) (h : RPCEndpointHealth) : Bool :=
  ¬ (3 ≤ h.failures ∧ now - h.lastFailure < 60)

/-- `RPCEndpointHealth.record_success`: reset failures, EMA the latency with
weight 0.2 on the new sample (first sample taken as-is). -/
def recordSuccess (latencyMs now : ℚ) (h : RPCEndpointHealth) : RPCEndpointHealth :=
  { h with lastSuccess := now, failures := 0,
           avgLatencyMs := if h.avgLatencyMs = 0 then latencyMs
                           else 8 / 10 * h.avgLatencyMs + 2 / 10 * latencyMs }

/-- `RPCEndpointHealth.record_failure`. -/
def recordFailure (now : ℚ) (h : RPCEndpointHealth) : RPCEndpointHealth :=
  { h with failures := h.failures + 1, lastFailure := now }

/-- Sort key of `_get_best_endpoint`: `avg_latency_ms or float('inf')`; `none`
stands for infinity (never-measured endpoint). -/
def latencyKey (h : RPCEndpointHealth) : Option ℚ :=
  if h.avgLatencyMs = 0 then none else some h.avgLatencyMs

/-- Strict comparison of latency keys, `none` = infinity. -/
def keyLtB : Option ℚ → Option ℚ → Bool
  | some a, some b => decide (a < b)
  | some _, none => true
  | none, _ => false

/-- Minimum of the healthy endpoints by latency key, first wins on ties —
exactly what the stable ascending sort plus `[0]` of `_get_best_endpoint`
selects. -/
def selectBest (first : ℕ × RPCEndpointHealth) (rest : List (ℕ × RPCEndpointHealth)) :
    ℕ × RPCEndpointHealth :=
  rest.foldl (fun best c => if keyLtB (latencyKey c.2) (latencyKey best.2) then c else best)
    first

/-- Replace the i-th element, leaving the rest unchanged (in-place mutation of
one health record). -/
def updateAt (l : List RPCEndpointHealth) (i : ℕ)
    (f : RPCEndpointHealth → RPCEndpointHealth) : List RPCEndpointHealth :=
  l.enum.map fun p => if p.1 = i then f p.2 else p.2

/-- `RPCManager._get_best_endpoint`: index of the chosen endpoint plus the
(possibly reset) health list — when no endpoint is healthy, all failure
counters are cleared and the first endpoint is used. -/
def getBestEndpoint (now : ℚ) (hs : List RPCEndpointHealth) :
    ℕ × List RPCEndpointHealth :=
  match hs.enum.filter (fun p => isHealthy now p.2) with
  | [] => (0, hs.map fun h => { h with failures := 0 })
  | first :: rest => ((selectBest first rest).1, hs)

/-- `RPCManager.call`, one attempt per configured endpoint: pick the best
endpoint, call it (`behavior i = true` means endpoint `i` succeeds), record
success or failure, and on failure move to the next attempt. Attempts within
one call happen sub-second, so they share the instant `now`. Returns
(succeeded, attempts used, final health state). -/
def rpcCallAux (behavior : ℕ → Bool) (lat : ℕ → ℚ) (now : ℚ) :
    ℕ → List RPCEndpointHealth → Bool × ℕ × List RPCEndpointHealth
  | 0, hs => (false, 0, hs)
  | fuel + 1, hs =>
    let sel := getBestEndpoint now hs
    if behavior sel.1 then
      (true, 1, updateAt sel.2 sel.1 (recordSuccess (lat sel.1) now))
    else
      let r := rpcCallAux behavior lat now fuel (updateAt sel.2 sel.1 (recordFailure now))
      (r.1, r.2.1 + 1, r.2.2)

/-- `RPCManager.call`: `for attempt in range(len(config.rpc_endpoints))`;
returns `false` in the first component when every attempt failed (the Python
raises). -/
def rpcCall (behavior : ℕ → Bool) (lat : ℕ → ℚ) (now : ℚ)
    (hs : List RPCEndpointHealth) : Bool × ℕ × List RPCEndpointHealth :=
  rpcCallAux behavior lat now hs.length hs

/-- A fresh, never-used endpoint health record. -/
def freshEndpoint (u : String) : RPCEndpointHealth := { url := u }

/-- Number of venues whose market list carries the pair. -/
def venuesSupporting (venueMarkets : List (String × List (String × String)))
    (p : String × String) : ℕ :=
  (venueMarkets.filter fun v => v.2.contains p).length

/-- Modelled from the spec: `CCXTFetcher.harvest_all_markets` is invoked by
`ArbitrageEngine` (engine lines 97 and 397) but its definition is not among
the sources; per spec §4.3 the harvest operation "returns the set of
(base, quote) pairs supported by ≥ min_venues venues". Input: per-venue
market-pair lists; output: the pairs supported by at least `minVenues`
venues. -/
def harvestAllMarkets (minVenues : ℕ)
    (venueMarkets : List (String × List (String × String))) :
    List (String × String) :=
  (dedupFirst (venueMarkets.flatMap Prod.snd)).filter fun p =>
    decide (minVenues ≤ venuesSupporting venueMarkets p)

/-- The engine's harvest bookkeeping (`ArbitrageEngine.__init__` lines 85-86):
the discovered pair universe and the instant of the last harvest. -/
structure EngineHarvestState where
  discoveredPairs : List (String × String) := []
  lastHarvestTime : ℚ := 0
deriving DecidableEq, Repr

/-- `ArbitrageEngine.scan` line 395: harvest when no pairs were discovered yet
(first scan of a freshly constructed engine) or more than 600 s have passed
since the last harvest. -/
def harvestDue (now : ℚ) (st : EngineHarvestState) : Bool :=
  st.discoveredPairs.isEmpty || decide (600 < now - st.lastHarvestTime)

/-- `ArbitrageEngine.scan` lines 393-403: when a harvest is due, replace the
universe with the harvested pairs united with the configured pair list and
stamp the harvest time; otherwise leave the state untouched. -/
def scanUniverseRefresh (now : ℚ) (harvested tradingPairs : List (String × String))
    (st : EngineHarvestState) : EngineHarvestState :=
  if harvestDue now st then
    { discoveredPairs := dedupFirst (harvested ++ tradingPairs), lastHarvestTime := now }
  else st

/-- The first endpoint of a manager that has already recorded two failed
attempts against it (the state after the first, fully failed, call). -/
def warmedEndpoint : RPCEndpointHealth := { url := "u1", failures := 2, lastFailure := 1000 }

/-- Outcome of one iteration of the scan loop body, abstracting where the
exception surfaced: a completed scan with its opportunities, a non-cancellation
exception, or a cancellation. -/
inductive IterOutcome where
  | success (opps : List ArbitrageOpportunity)
  | failure
  | cancelled
deriving DecidableEq

/-- Observable actions of `run_continuous`. -/
inductive LoopAction where
  | scanStarted
  | ticked (opps : List ArbitrageOpportunity)
  | slept (seconds : ℚ)
  | loggedError
deriving DecidableEq

/-- Shorthand for a CEX quote record with no reported volume. -/
def cexQuote (ex sym : String) (bid ask : ℚ) (ts : ℤ) : CEXPrice :=
  { exchange := ex, symbol := sym, bid := bid, ask := ask, mid := (bid + ask) / 2,
    timestamp := ts, volume24h := none }

/-- Fabricated venue quote set of the triangular test scenario: `B/USDT` at
100/100, `ETH/USDT` at 2000/2000, `B/ETH` at 0.0502/0.0502, all on venue
`V`. -/
def triScenarioInput : List (String × List CEXPrice) :=
  [("B/USDT", [cexQuote "V" "B/USDT" 100 100 0]),
   ("ETH/USDT", [cexQuote "V" "ETH/USDT" 2000 2000 0]),
   ("B/ETH", [cexQuote "V" "B/ETH" (502 / 10000) (502 / 10000) 0])]

/-- A venue quote set that does contain a code-shaped hub triple
(`AAA/USDT`, `USDT/USDC`, `AAA/USDC`) with a profitable forward loop. -/
def triProfitableInput : List (String × List CEXPrice) :=
  [("AAA/USDT", [cexQuote "V" "AAA/USDT" 2 2 0]),
   ("USDT/USDC", [cexQuote "V" "USDT/USDC" 1 1 0]),
   ("AAA/USDC", [cexQuote "V" "AAA/USDC" 1 1 0])]

/-- The member `triProfitableInput` produces (forward loop 2 / 1 / 1 = 2,
profit 100 %), at class-definition time 7. -/
def triProfitableOpp : TriangularOpportunity :=
  { exchange := "V", symbolPath := ["AAA/USDT", "USDT/USDC", "AAA/USDC"],
    tradePath := ["SELL", "BUY", "BUY"], expectedProfitPct := 100, timestamp := 7 }

/-- A crossed CEX book: bid 2 above ask 1, both positive, fresh timestamp. -/
def crossedQuote : CEXPrice := cexQuote "ex" "X/USDT" 2 1 1000000

/-- The per-venue market dict `groupByExchange` builds for
`triProfitableInput`. -/
def triMarkets : List (String × CEXPrice) :=
  [("AAA/USDT", cexQuote "V" "AAA/USDT" 2 2 0),
   ("USDT/USDC", cexQuote "V" "USDT/USDC" 1 1 0),
   ("AAA/USDC", cexQuote "V" "AAA/USDC" 1 1 0)]

/-- The per-venue market dict `groupByExchange` builds for
`triScenarioInput`. -/
def triScenarioMarkets : List (String × CEXPrice) :=
  [("B/USDT", cexQuote "V" "B/USDT" 100 100 0),
   ("ETH/USDT", cexQuote "V" "ETH/USDT" 2000 2000 0),
   ("B/ETH", cexQuote "V" "B/ETH" (502 / 10000) (502 / 10000) 0)]

/-- A CEX source quoting 1/1 (the cheap buy side in the pair scenarios). -/
def srcLow : PriceSource := { sourceType := .CEX, sourceName := "ex1", bid := 1, ask := 1 }

/-- A CEX source quoting 3/3: a 200 % spread against `srcLow` — data-anomaly
territory. -/
def srcHigh : PriceSource := { sourceType := .CEX, sourceName := "ex2", bid := 3, ask := 3 }

/-- A CEX source quoting 1.1/1.1: a realistic profitable sell side against
`srcLow`. -/
def srcSell : PriceSource :=
  { sourceType := .CEX, sourceName := "ex2", bid := 11 / 10, ask := 11 / 10 }

/-- Buy side of the profit-level scenario. -/
def srcE : PriceSource := { sourceType := .CEX, sourceName := "exa", bid := 1, ask := 1 }

/-- Sell side of the profit-level scenario, 20 % above `srcE`. -/
def srcF : PriceSource :=
  { sourceType := .CEX, sourceName := "exb", bid := 6 / 5, ask := 6 / 5 }

/-- A DEX quote whose source reported no timestamp (stored as 0). -/
def qNoTimestamp : DEXQuote :=
  { dexName := "sushiswap", chain := .POLYGON, chainName := "POLYGON",
    baseSymbol := "X", quoteSymbol := "USDT", bid := 1, ask := 2,
    feePercent := 3 / 10, timestamp := 0 }

/-- The matrix entry the crossed book becomes. -/
def crossedSource : PriceSource :=
  { sourceType := .CEX, sourceName := "ex", chain := none, bid := 2, ask := 1,
    timestamp := 1000, volume24h := none }

/-- `ArbitrageEngine.run_continuous` over a finite schedule of iteration
outcomes: a successful iteration runs `on_scan_start`, the scan, the callback
and the interval sleep; a non-cancellation exception is logged and followed by
a 5 s sleep, and the loop continues; a cancellation breaks out of the loop.
The boolean is `true` exactly when the loop returned (via cancellation) rather
than being still live when the schedule ran out. -/
def runContinuousTrace : List IterOutcome → List LoopAction × Bool
  | [] => ([], false)
  | .success opps :: rest =>
    let r := runContinuousTrace rest
    (.scanStarted :: .ticked opps :: .slept SCAN_INTERVAL_SECONDS :: r.1, r.2)
  | .failure :: rest =>
    let r := runContinuousTrace rest
    (.loggedError :: .slept 5 :: r.1, r.2)
  | .cancelled :: _ => ([], true)

/-! Helper lemmas shared by the claim theorems. -/

theorem mem_of_mem_lookupEntries {α : Type} {m : List (String × List α)} {k : String}
    {a : α} (h : a ∈ lookupEntries m k) : ∃ e ∈ m, a ∈ e.2 := by
  unfold lookupEntries at h
  split at h
  · rename_i e he
    exact ⟨e, List.mem_of_find?_eq_some he, h⟩
  · simp at h

theorem cexToSource_fields {now : ℚ} {p : CEXPrice} {s : PriceSource}
    (h : cexToSource now p = some s) : s.bid = p.bid ∧ s.ask = p.ask := by
  unfold cexToSource at h
  split at h
  · simp at h
  · split at h
    · simp at h
    · injection h with h
      subst h
      exact ⟨rfl, rfl⟩

theorem dexToSource_fields {now : ℚ} {q : DEXQuote} {s : PriceSource}
    (h : dexToSource now q = some s) : s.bid = engineDexBid q ∧ s.ask = engineDexAsk q := by
  unfold dexToSource at h
  split at h
  · simp at h
  · injection h with h
    subst h
    exact ⟨rfl, rfl⟩

theorem ticker_bid_ask_pos {ex sym : String} {t : Ticker} {p : CEXPrice}
    (h : tickerToCEXPrice ex sym t = some p) : 0 < p.bid ∧ 0 < p.ask := by
  simp only [tickerToCEXPrice] at h
  split at h
  · simp at h
  · rename_i hcond
    push_neg at hcond
    injection h with h
    subst h
    exact ⟨hcond.1, hcond.2⟩

/-- C4: the reliability filter of `_build_price_matrix` drops no quote merely
because its 24h volume is missing, and drops no DEX quote merely because its
timestamp is missing (encoded 0); a CEX quote with missing timestamp
(encoded 0 by the fetcher), however, is dropped by the staleness check
whenever the scan instant exceeds 600 (i.e. at any realistic epoch time). -/
theorem reliability_missing_field_handling :
    (∀ (now : ℚ) (p : CEXPrice), p.volume24h = none →
      (cexToSource now p = none ↔ 600 < now - (p.timestamp : ℚ) / 1000)) ∧
    (∀ (now : ℚ) (q : DEXQuote), q.timestamp = 0 → (dexToSource now q).isSome = true) ∧
    (∀ (now : ℚ) (p : CEXPrice), p.timestamp = 0 → 600 < now → cexToSource now p = none) := by
  refine ⟨?_, ?_, ?_⟩
  · intro now p hv
    by_cases h : 600 < now - (p.timestamp : ℚ) / 1000
    · simp [cexToSource, h, hv, volumeTooLow]
    · simp [cexToSource, h, hv, volumeTooLow]
  · intro now q ht
    simp [dexToSource, ht]
  · intro now p ht h
    have h0 : 600 < now - (p.timestamp : ℚ) / 1000 := by
      rw [ht]
      simpa using h
    simp [cexToSource, h0]

/-- C4 witness: the three parts of the theorem instantiated — a CEX quote with
reported timestamp obeys the pure staleness criterion when its volume is
missing, a DEX quote with timestamp 0 survives, and a CEX quote with
timestamp 0 is dropped at epoch-scale `now`. -/
theorem reliability_missing_field_handling_witness :
    (cexToSource 7 (cexQuote "ex" "E/U" 1 2 5000) = none ↔
      600 < (7 : ℚ) - ((5000 : ℤ) : ℚ) / 1000) ∧
    (dexToSource 3 qNoTimestamp).isSome = true ∧
    cexToSource 1700000000 (cexQuote "ex" "E/U" 1 2 0) = none :=
  ⟨reliability_missing_field_handling.1 7 (cexQuote "ex" "E/U" 1 2 5000) rfl,
   reliability_missing_field_handling.2.1 3 qNoTimestamp rfl,
   reliability_missing_field_handling.2.2 1700000000 (cexQuote "ex" "E/U" 1 2 0) rfl
     (by norm_num)⟩

/-- C4 counterexample: a ticker with missing timestamp and missing volume
passes the fetcher (timestamp encoded 0), yet the matrix-build staleness check
drops it at a realistic scan instant — the missing timestamp alone triggers
the drop, contradicting the claim. -/
theorem missing_timestamp_quote_dropped :
    tickerToCEXPrice "ex" "E/U"
        { bid := some 1, ask := some 2, timestamp := none, quoteVolume := none }
      = some (cexQuote "ex" "E/U" 1 2 0) ∧
    cexToSource 1700000000 (cexQuote "ex" "E/U" 1 2 0) = none := by
  constructor
  · norm_num [tickerToCEXPrice, cexQuote]
  · norm_num [cexToSource, cexQuote, volumeTooLow]

/-- C5: a constant-product DEX quote built from reserves with sized input
`amountIn` has pre-fee bid spot·(1−impact) and pre-fee ask spot·(1+impact)
with impact = amountIn/(reserveIn + amountIn); after the engine folds the
router fee fraction f = feePercent/100 into the matrix entry, the stored bid
equals pool-spot·(1−f−impact) plus the second-order term spot·f·impact, hence
is within any ε that dominates that term. -/
theorem dex_quote_slippage_and_fee_fold
    (resIn resOut baseDec quoteDec amountIn : ℕ) (now : ℚ) (q : DEXQuote)
    (ps : PriceSource)
    (hbid : q.bid = dexBidPrice resIn resOut baseDec quoteDec amountIn)
    (hask : q.ask = dexAskPrice resIn resOut baseDec quoteDec amountIn)
    (hps : dexToSource now q = some ps) :
    q.bid = reservePrice resIn resOut baseDec quoteDec * (1 - sellImpact resIn amountIn) ∧
    q.ask = reservePrice resIn resOut baseDec quoteDec * (1 + sellImpact resIn amountIn) ∧
    ps.bid = reservePrice resIn resOut baseDec quoteDec *
        (1 - q.feePercent / 100 - sellImpact resIn amountIn) +
      reservePrice resIn resOut baseDec quoteDec * (q.feePercent / 100) *
        sellImpact resIn amountIn ∧
    (0 ≤ reservePrice resIn resOut baseDec quoteDec → 0 ≤ q.feePercent →
      ∀ ε : ℚ,
        reservePrice resIn resOut baseDec quoteDec * (q.feePercent / 100) *
            sellImpact resIn amountIn ≤ ε →
        |ps.bid - reservePrice resIn resOut baseDec quoteDec *
            (1 - q.feePercent / 100 - sellImpact resIn amountIn)| ≤ ε) := by
  have hpsbid : ps.bid = engineDexBid q := (dexToSource_fields hps).1
  have hkey : ps.bid = reservePrice resIn resOut baseDec quoteDec *
      (1 - q.feePercent / 100 - sellImpact resIn amountIn) +
      reservePrice resIn resOut baseDec quoteDec * (q.feePercent / 100) *
        sellImpact resIn amountIn := by
    rw [hpsbid, engineDexBid, hbid, dexBidPrice]
    ring
  refine ⟨by rw [hbid, dexBidPrice], by rw [hask, dexAskPrice], hkey, ?_⟩
  intro hspot hfee ε hε
  have himp : 0 ≤ sellImpact resIn amountIn := by
    unfold sellImpact
    positivity
  have hdiff : ps.bid - reservePrice resIn resOut baseDec quoteDec *
      (1 - q.feePercent / 100 - sellImpact resIn amountIn) =
      reservePrice resIn resOut baseDec quoteDec * (q.feePercent / 100) *
        sellImpact resIn amountIn := by
    rw [hkey]
    ring
  rw [hdiff, abs_of_nonneg (by positivity)]
  exact hε

/-- C5 concrete quote: reserves 1 000 000 / 2 000 000, both sides 6 decimals,
sized input 1000, fee 0.3 %, timestamp equal to the scan instant. -/
def qC5 : DEXQuote :=
  { dexName := "uniswap_v2", chain := .ETHEREUM, chainName := "ETHEREUM",
    baseSymbol := "X", quoteSymbol := "USDT",
    bid := dexBidPrice 1000000 2000000 6 6 1000,
    ask := dexAskPrice 1000000 2000000 6 6 1000,
    feePercent := 3 / 10, timestamp := 5 }

/-- The matrix entry the engine stores for `qC5`. -/
def psC5 : PriceSource :=
  { sourceType := .DEX, sourceName := "uniswap_v2", chain := some .ETHEREUM,
    bid := engineDexBid qC5, ask := engineDexAsk qC5, timestamp := 5, volume24h := none }

/-- C5 witness: the fold identity evaluated on the concrete quote `qC5`. -/
theorem dex_quote_slippage_and_fee_fold_witness :
    dexToSource 5 qC5 = some psC5 ∧
    psC5.bid = reservePrice 1000000 2000000 6 6 *
        (1 - (3 / 10 : ℚ) / 100 - sellImpact 1000000 1000) +
      reservePrice 1000000 2000000 6 6 * ((3 / 10 : ℚ) / 100) * sellImpact 1000000 1000 := by
  have h : dexToSource 5 qC5 = some psC5 := by
    norm_num [dexToSource, qC5, psC5]
  exact ⟨h, (dex_quote_slippage_and_fee_fold 1000000 2000000 6 6 1000 5 qC5 psC5
    rfl rfl h).2.2.1⟩

/-- C6: every quote in the matrix built from fetcher-validated inputs has
positive bid and positive ask (the REST fetcher itself only emits positive
bid/ask), for CEX and DEX sources alike — but the ordering bid ≤ ask is not
enforced anywhere (see the counterexample). -/
theorem matrix_quotes_positive :
    (∀ (ex sym : String) (t : Ticker) (p : CEXPrice),
      tickerToCEXPrice ex sym t = some p → 0 < p.bid ∧ 0 < p.ask) ∧
    (∀ (now : ℚ) (cex : List (String × List CEXPrice)) (dex : List (String × List DEXQuote)),
      (∀ e ∈ cex, ∀ p ∈ e.2, 0 < p.bid ∧ 0 < p.ask) →
      (∀ e ∈ dex, ∀ q ∈ e.2, 0 < q.bid ∧ 0 < q.ask ∧ 0 ≤ q.feePercent ∧ q.feePercent < 100) →
      ∀ e ∈ buildPriceMatrix now cex dex, ∀ s ∈ e.2, 0 < s.bid ∧ 0 < s.ask) := by
  refine ⟨fun ex sym t p h => ticker_bid_ask_pos h, ?_⟩
  intro now cex dex hcex hdex e he s hs
  obtain ⟨k, _, rfl⟩ := List.mem_map.mp he
  simp only [List.mem_append, List.mem_filterMap] at hs
  rcases hs with ⟨p, hp, hps⟩ | ⟨q, hq, hqs⟩
  · obtain ⟨e0, he0, hpe⟩ := mem_of_mem_lookupEntries hp
    obtain ⟨hb, ha⟩ := cexToSource_fields hps
    obtain ⟨hpb, hpa⟩ := hcex e0 he0 p hpe
    rw [hb, ha]
    exact ⟨hpb, hpa⟩
  · obtain ⟨e0, he0, hqe⟩ := mem_of_mem_lookupEntries hq
    obtain ⟨hb, ha⟩ := dexToSource_fields hqs
    obtain ⟨hqb, hqa, hf0, hf100⟩ := hdex e0 he0 q hqe
    rw [hb, ha, engineDexBid, engineDexAsk]
    constructor
    · have : q.feePercent / 100 < 1 := by linarith
      have h1 : (0 : ℚ) < 1 - q.feePercent / 100 := by linarith
      exact mul_pos hqb h1
    · have h1 : (0 : ℚ) < 1 + q.feePercent / 100 := by
        have : (0 : ℚ) ≤ q.feePercent / 100 := by positivity
        linarith
      exact mul_pos hqa h1

/-- C6 witness: the positivity invariant applied to a one-quote matrix. -/
theorem matrix_quotes_positive_witness :
    (0 : ℚ) < crossedSource.bid ∧ (0 : ℚ) < crossedSource.ask := by
  have hmat : buildPriceMatrix 1000 [("X/USDT", [crossedQuote])] [] =
      [("X/USDT", [crossedSource])] := by
    norm_num [buildPriceMatrix, matrixKeys, lookupEntries, cexToSource, volumeTooLow,
      crossedQuote, crossedSource, cexQuote, List.find?, List.filterMap_cons, List.filterMap_nil]
  refine matrix_quotes_positive.2 1000 [("X/USDT", [crossedQuote])] [] ?_ ?_
    ("X/USDT", [crossedSource]) ?_ crossedSource ?_
  · intro e he p hp
    simp only [List.mem_singleton] at he
    subst he
    simp only [List.mem_singleton] at hp
    subst hp
    norm_num [crossedQuote, cexQuote]
  · intro e he
    simp at he
  · rw [hmat]
    simp
  · simp

/-- C6 counterexample: a crossed CEX book (bid 2 above ask 1, both positive,
fresh) passes the fetcher's positivity-only validation and enters the matrix
with ask strictly below bid, refuting bid ≤ ask. -/
theorem crossed_book_enters_matrix :
    tickerToCEXPrice "ex" "X/USDT"
        { bid := some 2, ask := some 1, timestamp := some 1000000, quoteVolume := none }
      = some crossedQuote ∧
    buildPriceMatrix 1000 [("X/USDT", [crossedQuote])] [] = [("X/USDT", [crossedSource])] ∧
    crossedSource.ask < crossedSource.bid := by
  refine ⟨?_, ?_, ?_⟩
  · norm_num [tickerToCEXPrice, crossedQuote, cexQuote]
  · norm_num [buildPriceMatrix, matrixKeys, lookupEntries, cexToSource, volumeTooLow,
      crossedQuote, crossedSource, cexQuote, List.find?, List.filterMap_cons, List.filterMap_nil]
  · norm_num [crossedSource]

theorem timestamp_of_mem_triple {t : ℚ} {ex : String}
    {markets : List (String × CEXPrice)} {base h1 h2 : String}
    {o : TriangularOpportunity}
    (h : o ∈ tripleOpportunities t ex markets base h1 h2) : o.timestamp = t := by
  simp only [tripleOpportunities] at h
  split at h
  · split at h
    · simp at h
    · simp only [List.mem_append] at h
      rcases h with h | h
      · split at h
        · simp only [List.mem_singleton] at h
          subst h
          rfl
        · simp at h
      · split at h
        · simp at h
        · split at h
          · simp only [List.mem_singleton] at h
            subst h
            rfl
          · simp at h
  · simp at h

theorem timestamp_of_mem_triangular {t : ℚ} {inp : List (String × List CEXPrice)}
    {o : TriangularOpportunity} (h : o ∈ triangularFindOpportunities t inp) :
    o.timestamp = t := by
  simp only [triangularFindOpportunities, List.mem_flatMap] at h
  obtain ⟨ex, _, h⟩ := h
  obtain ⟨base, _, h⟩ := h
  split at h
  · simp at h
  · simp only [List.mem_flatMap] at h
    obtain ⟨hp, _, h⟩ := h
    exact timestamp_of_mem_triple h

set_option maxHeartbeats 1000000 in
theorem triangular_scenario_empty :
    triangularFindOpportunities 0 triScenarioInput = [] := by
  norm_num +decide [triangularFindOpportunities, triScenarioInput, groupByExchange,
    assocUpsert, assocLookup, extractBases, dedupFirst, symbolBase, hubPairs, HUBS,
    tripleOpportunities, cexQuote, List.find?, List.foldl, List.flatMap]

/-- C3 counterexample: on the fabricated quote set (B/USDT 100/100,
ETH/USDT 2000/2000, B/ETH 0.0502/0.0502) the triangular strategy reports no
opportunity at all — in particular no ≈0.398 % one. -/
theorem triangular_scenario_reports_nothing :
    ¬ ∃ opp, opp ∈ triangularFindOpportunities 0 triScenarioInput := by
  rw [triangular_scenario_empty]
  simp

/-- C3 (amended): the code forms the middle market of a hub triple as
`h1/h2` with the hubs in the fixed list order USDT, USDC, BTC, ETH; for the
scenario's only usable hub pair (USDT, ETH) this is the market `USDT/ETH`,
which the fabricated venue does not quote (it quotes ETH/USDT), so the
strategy finds no triple and returns no opportunity. -/
theorem triangular_scenario_missing_middle_market :
    ("USDT", "ETH") ∈ hubPairs ∧
    groupByExchange triScenarioInput = [("V", triScenarioMarkets)] ∧
    assocLookup triScenarioMarkets "USDT/ETH" = none ∧
    triangularFindOpportunities 0 triScenarioInput = [] :=
  ⟨by decide, rfl, rfl, triangular_scenario_empty⟩

/-- C10: every opportunity the triangular strategy ever constructs carries the
dataclass's single class-definition-time timestamp, so any two opportunities
built without an explicit timestamp — even from different scans' inputs —
have equal timestamps. -/
theorem triangular_timestamps_all_equal (t : ℚ)
    (input1 input2 : List (String × List CEXPrice)) (o1 o2 : TriangularOpportunity)
    (h1 : o1 ∈ triangularFindOpportunities t input1)
    (h2 : o2 ∈ triangularFindOpportunities t input2) :
    o1.timestamp = o2.timestamp := by
  rw [timestamp_of_mem_triangular h1, timestamp_of_mem_triangular h2]

theorem triProfitable_mem :
    triProfitableOpp ∈ triangularFindOpportunities 7 triProfitableInput := by
  have hgrp : groupByExchange triProfitableInput = [("V", triMarkets)] := rfl
  have htriple : tripleOpportunities 7 "V" triMarkets "AAA" "USDT" "USDC" =
      [triProfitableOpp] := by
    norm_num +decide [tripleOpportunities, assocLookup, triMarkets, cexQuote,
      MIN_TRIANGULAR_PROFIT_PCT, triProfitableOpp, List.find?_cons, List.find?_nil]
  unfold triangularFindOpportunities
  rw [hgrp]
  refine List.mem_flatMap.mpr ⟨("V", triMarkets), by simp, ?_⟩
  refine List.mem_flatMap.mpr ⟨"AAA", ?_, ?_⟩
  · show "AAA" ∈ extractBases (triMarkets.map Prod.fst)
    have hbases : extractBases (triMarkets.map Prod.fst) = ["AAA", "USDT"] := rfl
    rw [hbases]
    simp
  · rw [if_neg (by decide)]
    refine List.mem_flatMap.mpr ⟨("USDT", "USDC"), by decide, ?_⟩
    show triProfitableOpp ∈ tripleOpportunities 7 "V" triMarkets "AAA" "USDT" "USDC"
    rw [htriple]
    simp

/-- C10 witness: two concrete members of a strategy run (here the same one)
share their timestamp. -/
theorem triangular_timestamps_all_equal_witness :
    triProfitableOpp ∈ triangularFindOpportunities 7 triProfitableInput ∧
    triProfitableOpp.timestamp = triProfitableOpp.timestamp :=
  ⟨triProfitable_mem,
   triangular_timestamps_all_equal 7 triProfitableInput triProfitableInput
     triProfitableOpp triProfitableOpp triProfitable_mem triProfitable_mem⟩

theorem mem_foldl_dedup {α : Type} [BEq α] [LawfulBEq α] (l : List α) (acc : List α)
    (a : α) :
    (a ∈ l.foldl (fun acc s => if acc.contains s then acc else acc ++ [s]) acc) ↔
      a ∈ acc ∨ a ∈ l := by
  induction l generalizing acc with
  | nil => simp
  | cons x xs ih =>
    simp only [List.foldl_cons]
    by_cases h : acc.contains x
    · rw [if_pos h, ih]
      have hx : x ∈ acc := List.elem_iff.mp h
      constructor
      · rintro (ha | ha)
        · exact Or.inl ha
        · exact Or.inr (List.mem_cons_of_mem _ ha)
      · rintro (ha | ha)
        · exact Or.inl ha
        · rcases List.mem_cons.mp ha with rfl | ha
          · exact Or.inl hx
          · exact Or.inr ha
    · rw [if_neg h, ih]
      simp only [List.mem_append, List.mem_singleton, List.mem_cons]
      tauto

theorem mem_dedupFirst {α : Type} [BEq α] [LawfulBEq α] {l : List α} {a : α} :
    a ∈ dedupFirst l ↔ a ∈ l := by
  unfold dedupFirst
  rw [mem_foldl_dedup]
  simp

/-- C1: the harvest operation (modelled from the spec, since
`harvest_all_markets` is called by the engine but not defined in the sources)
returns exactly the (base, quote) pairs supported by at least `minVenues`
venues; the engine's scan triggers it when no pair universe exists yet (first
scan of a fresh engine) and exactly when more than 600 seconds have passed
since the last harvest, replacing the universe with the harvest united with
the configured pair list. -/
theorem harvest_and_universe_refresh :
    (∀ (minVenues : ℕ) (venueMarkets : List (String × List (String × String)))
        (p : String × String),
      p ∈ harvestAllMarkets minVenues venueMarkets ↔
        (∃ v ∈ venueMarkets, p ∈ v.2) ∧ minVenues ≤ venuesSupporting venueMarkets p) ∧
    (∀ now : ℚ, harvestDue now { discoveredPairs := [], lastHarvestTime := 0 } = true) ∧
    (∀ (now : ℚ) (st : EngineHarvestState), st.discoveredPairs ≠ [] →
      (harvestDue now st = true ↔ 600 < now - st.lastHarvestTime)) ∧
    (∀ (now : ℚ) (harvested tradingPairs : List (String × String))
        (st : EngineHarvestState), harvestDue now st = true →
      scanUniverseRefresh now harvested tradingPairs st =
        { discoveredPairs := dedupFirst (harvested ++ tradingPairs),
          lastHarvestTime := now }) := by
  refine ⟨?_, ?_, ?_, ?_⟩
  · intro minVenues venueMarkets p
    unfold harvestAllMarkets
    rw [List.mem_filter, mem_dedupFirst, List.mem_flatMap]
    simp
  · intro now
    simp [harvestDue]
  · intro now st h
    have : st.discoveredPairs.isEmpty = false := by
      simpa [List.isEmpty_iff] using h
    simp [harvestDue, this]
  · intro now harvested tradingPairs st h
    unfold scanUniverseRefresh
    rw [if_pos h]

/-- C1 witness: two venues both list ETH/USDT, one also lists BTC/USDT; with
`min_venues = 2` exactly ETH/USDT is harvested, a fresh engine harvests on its
first scan, and a 601-second-old universe is refreshed. -/
theorem harvest_and_universe_refresh_witness :
    (("ETH", "USDT") ∈ harvestAllMarkets 2
        [("v1", [("ETH", "USDT"), ("BTC", "USDT")]), ("v2", [("ETH", "USDT")])] ↔
      (∃ v ∈ [("v1", [("ETH", "USDT"), ("BTC", "USDT")]), ("v2", [("ETH", "USDT")])],
        ("ETH", "USDT") ∈ v.2) ∧
      2 ≤ venuesSupporting
        [("v1", [("ETH", "USDT"), ("BTC", "USDT")]), ("v2", [("ETH", "USDT")])]
        ("ETH", "USDT")) ∧
    harvestDue 0 { discoveredPairs := [], lastHarvestTime := 0 } = true ∧
    (harvestDue 601 { discoveredPairs := [("ETH", "USDT")], lastHarvestTime := 0 } = true ↔
      600 < (601 : ℚ) - 0) ∧
    scanUniverseRefresh 601 [("A", "B")] [("C", "D")]
        { discoveredPairs := [("ETH", "USDT")], lastHarvestTime := 0 } =
      { discoveredPairs := dedupFirst ([("A", "B")] ++ [("C", "D")]),
        lastHarvestTime := 601 } := by
  refine ⟨harvest_and_universe_refresh.1 2 _ ("ETH", "USDT"),
    harvest_and_universe_refresh.2.1 0,
    harvest_and_universe_refresh.2.2.1 601 _ (by simp),
    harvest_and_universe_refresh.2.2.2 601 _ _ _ ?_⟩
  norm_num [harvestDue]

/-- C8: each successful iteration of `run_continuous` runs `on_scan_start`,
one scan, the callback with the scan's opportunities, and the interval sleep;
a non-cancellation exception is logged, followed by a 5 s sleep, and the loop
continues; the loop never exits while no cancellation occurs; and a
cancellation ends the loop cleanly, discarding the rest of the schedule. -/
theorem run_continuous_loop_behavior :
    (∀ (opps : List ArbitrageOpportunity) (rest : List IterOutcome),
      runContinuousTrace (.success opps :: rest) =
        (.scanStarted :: .ticked opps :: .slept SCAN_INTERVAL_SECONDS ::
          (runContinuousTrace rest).1, (runContinuousTrace rest).2)) ∧
    (∀ rest : List IterOutcome,
      runContinuousTrace (.failure :: rest) =
        (.loggedError :: .slept 5 :: (runContinuousTrace rest).1,
          (runContinuousTrace rest).2)) ∧
    (∀ rest : List IterOutcome, runContinuousTrace (.cancelled :: rest) = ([], true)) ∧
    (∀ sched : List IterOutcome, IterOutcome.cancelled ∉ sched →
      (runContinuousTrace sched).2 = false) ∧
    (∀ (pre post : List IterOutcome), IterOutcome.cancelled ∉ pre →
      runContinuousTrace (pre ++ .cancelled :: post) =
        ((runContinuousTrace pre).1, true)) := by
  refine ⟨fun opps rest => rfl, fun rest => rfl, fun rest => rfl, ?_, ?_⟩
  · intro sched h
    induction sched with
    | nil => rfl
    | cons x xs ih =>
      cases x with
      | success opps =>
        simp only [runContinuousTrace]
        exact ih fun hc => h (List.mem_cons_of_mem _ hc)
      | failure =>
        simp only [runContinuousTrace]
        exact ih fun hc => h (List.mem_cons_of_mem _ hc)
      | cancelled => exact absurd (List.mem_cons_self _ _) h
  · intro pre post h
    induction pre with
    | nil => rfl
    | cons x xs ih =>
      cases x with
      | success opps =>
        simp only [List.cons_append, runContinuousTrace, List.append_eq]
        rw [ih fun hc => h (List.mem_cons_of_mem _ hc)]
      | failure =>
        simp only [List.cons_append, runContinuousTrace, List.append_eq]
        rw [ih fun hc => h (List.mem_cons_of_mem _ hc)]
      | cancelled => exact absurd (List.mem_cons_self _ _) h

/-- C8 witness: a schedule with one exception and one successful scan keeps
looping; appending a cancellation ends the loop cleanly right there. -/
theorem run_continuous_loop_behavior_witness :
    runContinuousTrace [.failure, .success [], .cancelled, .failure] =
      ([.loggedError, .slept 5, .scanStarted, .ticked [],
        .slept SCAN_INTERVAL_SECONDS], true) ∧
    (runContinuousTrace [.failure, .success []]).2 = false := by
  constructor
  · calc runContinuousTrace [.failure, .success [], .cancelled, .failure]
        = runContinuousTrace ([.failure, .success []] ++ .cancelled :: [.failure]) := rfl
      _ = ((runContinuousTrace [.failure, .success []]).1, true) :=
          run_continuous_loop_behavior.2.2.2.2 [.failure, .success []] [.failure]
            (by decide)
      _ = ([.loggedError, .slept 5, .scanStarted, .ticked [],
            .slept SCAN_INTERVAL_SECONDS], true) := rfl
  · exact run_continuous_loop_behavior.2.2.2.1 [.failure, .success []] (by decide)

/-- C2 counterexample: with two fresh endpoints where the first always fails
and the second always succeeds, the very first `call` picks the still-healthy
first endpoint on both of its attempts (ties on the unmeasured-latency key go
to the earlier endpoint) and raises after 2 attempts — it does not complete
successfully within 2 attempts. -/
theorem rpc_first_call_exhausts_first_endpoint :
    (rpcCall (fun i => decide (i = 1)) (fun _ => 5) 1000
        [freshEndpoint "u1", freshEndpoint "u2"]).1 = false ∧
    (rpcCall (fun i => decide (i = 1)) (fun _ => 5) 1000
        [freshEndpoint "u1", freshEndpoint "u2"]).2.1 = 2 ∧
    ((rpcCall (fun i => decide (i = 1)) (fun _ => 5) 1000
        [freshEndpoint "u1", freshEndpoint "u2"]).2.2.headD default).failures = 2 := by
  norm_num [rpcCall, rpcCallAux, getBestEndpoint, isHealthy, selectBest, latencyKey,
    keyLtB, updateAt, recordFailure, recordSuccess, freshEndpoint, List.enum,
    List.enumFrom, List.filter, List.headD]

/-- C2 (amended): once the first endpoint has accumulated at least 2 failures
(as it has after the first, failed, call) and the second endpoint is healthy,
every call against a first-always-fails / second-always-succeeds pair
completes successfully within at most 2 attempts, and when the call does
spend an attempt on the first endpoint its failure count strictly increases
by one; a fresh manager's first call, by contrast, fails (see the
counterexample). -/
theorem rpc_failover_after_warmup (h0 h1 : RPCEndpointHealth) (behavior : ℕ → Bool)
    (lat : ℕ → ℚ) (now : ℚ)
    (hb0 : behavior 0 = false) (hb1 : behavior 1 = true)
    (hf0 : 2 ≤ h0.failures) (hf1 : h1.failures = 0) :
    (rpcCall behavior lat now [h0, h1]).1 = true ∧
    (rpcCall behavior lat now [h0, h1]).2.1 ≤ 2 ∧
    h0.failures ≤ ((rpcCall behavior lat now [h0, h1]).2.2.headD default).failures ∧
    ((rpcCall behavior lat now [h0, h1]).2.1 = 2 →
      ((rpcCall behavior lat now [h0, h1]).2.2.headD default).failures = h0.failures + 1) := by
  have hh1 : isHealthy now h1 = true := by simp [isHealthy, hf1]
  have hsucc1 : ∀ hs : List RPCEndpointHealth, hs = [h0, h1] ∨ hs = [recordFailure now h0, h1] → True := fun _ _ => trivial
  by_cases hB : isHealthy now h0 = true
  · by_cases hk : keyLtB (latencyKey h1) (latencyKey h0) = true
    · have hbest : getBestEndpoint now [h0, h1] = (1, [h0, h1]) := by
        simp [getBestEndpoint, List.enum, List.enumFrom, List.filter_cons, hB, hh1,
          selectBest, hk]
      have hcall : rpcCall behavior lat now [h0, h1] =
          (true, 1, updateAt [h0, h1] 1 (recordSuccess (lat 1) now)) := by
        simp [rpcCall, rpcCallAux, hbest, hb1]
      have hupd : updateAt [h0, h1] 1 (recordSuccess (lat 1) now) =
          [h0, recordSuccess (lat 1) now h1] := by
        simp [updateAt, List.enum, List.enumFrom]
      rw [hcall, hupd]
      norm_num [List.headD]
    · have hbest : getBestEndpoint now [h0, h1] = (0, [h0, h1]) := by
        simp [getBestEndpoint, List.enum, List.enumFrom, List.filter_cons, hB, hh1,
          selectBest, hk]
      have hupd : updateAt [h0, h1] 0 (recordFailure now) = [recordFailure now h0, h1] := by
        simp [updateAt, List.enum, List.enumFrom]
      have hunh : isHealthy now (recordFailure now h0) = false := by
        simp only [isHealthy, recordFailure, decide_eq_false_iff_not, not_not]
        exact ⟨by omega, by norm_num⟩
      have hbest2 : getBestEndpoint now [recordFailure now h0, h1] =
          (1, [recordFailure now h0, h1]) := by
        simp [getBestEndpoint, List.enum, List.enumFrom, List.filter_cons, hunh, hh1,
          selectBest]
      have hupd2 : updateAt [recordFailure now h0, h1] 1 (recordSuccess (lat 1) now) =
          [recordFailure now h0, recordSuccess (lat 1) now h1] := by
        simp [updateAt, List.enum, List.enumFrom]
      have hcall : rpcCall behavior lat now [h0, h1] =
          (true, 2, [recordFailure now h0, recordSuccess (lat 1) now h1]) := by
        simp [rpcCall, rpcCallAux, hbest, hb0, hb1, hupd, hbest2, hupd2]
      rw [hcall]
      refine ⟨rfl, le_refl _, ?_, fun _ => ?_⟩
      · simp [List.headD, recordFailure]
      · simp [List.headD, recordFailure]
  · have hbest : getBestEndpoint now [h0, h1] = (1, [h0, h1]) := by
      simp [getBestEndpoint, List.enum, List.enumFrom, List.filter_cons, hB, hh1,
        selectBest]
    have hcall : rpcCall behavior lat now [h0, h1] =
        (true, 1, updateAt [h0, h1] 1 (recordSuccess (lat 1) now)) := by
      simp [rpcCall, rpcCallAux, hbest, hb1]
    have hupd : updateAt [h0, h1] 1 (recordSuccess (lat 1) now) =
        [h0, recordSuccess (lat 1) now h1] := by
      simp [updateAt, List.enum, List.enumFrom]
    rw [hcall, hupd]
    norm_num [List.headD]

/-- C2 witness: the amended failover law applied to the post-first-call
state. -/
theorem rpc_failover_after_warmup_witness :
    (rpcCall (fun i => decide (i = 1)) (fun _ => 5) 1000
        [warmedEndpoint, freshEndpoint "u2"]).1 = true ∧
    (rpcCall (fun i => decide (i = 1)) (fun _ => 5) 1000
        [warmedEndpoint, freshEndpoint "u2"]).2.1 ≤ 2 :=
  have h := rpc_failover_after_warmup warmedEndpoint (freshEndpoint "u2")
    (fun i => decide (i = 1)) (fun _ => 5) 1000 rfl rfl (by norm_num [warmedEndpoint]) rfl
  ⟨h.1, h.2.1⟩

theorem mem_insertByNetDesc {x a : ArbitrageOpportunity} {l : List ArbitrageOpportunity} :
    x ∈ insertByNetDesc l a ↔ x = a ∨ x ∈ l := by
  induction l with
  | nil => simp [insertByNetDesc]
  | cons b rest ih =>
    simp only [insertByNetDesc]
    split
    · simp only [List.mem_cons]
    · simp only [List.mem_cons, ih]
      tauto

theorem mem_sortByNetDesc {x : ArbitrageOpportunity} {l : List ArbitrageOpportunity} :
    x ∈ sortByNetDesc l ↔ x ∈ l := by
  have aux : ∀ (l acc : List ArbitrageOpportunity) (x : ArbitrageOpportunity),
      x ∈ l.foldl insertByNetDesc acc ↔ x ∈ acc ∨ x ∈ l := by
    intro l
    induction l with
    | nil => intro acc x; simp
    | cons b rest ih =>
      intro acc x
      simp only [List.foldl_cons, ih, mem_insertByNetDesc, List.mem_cons]
      tauto
  unfold sortByNetDesc
  rw [aux]
  simp

theorem getProfitLevel_ne_none {p : ℚ} (h : MIN_PROFIT_USD ≤ p) :
    getProfitLevel p ≠ none := by
  have h5 : (5 : ℚ) ≤ p := h
  unfold getProfitLevel PROFIT_LEVELS
  by_cases h50 : (50 : ℚ) ≤ p
  · simp [List.find?_cons, h50]
  · by_cases h20 : (20 : ℚ) ≤ p
    · simp [List.find?_cons, h50, h20]
    · simp [List.find?_cons, h50, h20, h5]

theorem evaluatePair_profitLevel {gas : ChainId → Option ℚ} {symbol : String}
    {buy sell : PriceSource} {opp : ArbitrageOpportunity}
    (h : evaluatePair gas symbol buy sell = some opp) : opp.profitLevel ≠ none := by
  unfold evaluatePair at h
  split at h
  · simp at h
  · split at h
    · simp at h
    · split at h
      · simp at h
      · rename_i hng
        injection h with h
        subst h
        show getProfitLevel (pairNetProfit gas buy sell) ≠ none
        exact getProfitLevel_ne_none (not_lt.mp hng)

theorem length_filter_ne_of_lt {k i : ℕ} (h : i < k) :
    ((List.range k).filter fun j => decide (j ≠ i)).length = k - 1 := by
  induction k with
  | zero => omega
  | succ n ih =>
    rw [List.range_succ, List.filter_append]
    rcases Nat.lt_succ_iff_lt_or_eq.mp h with h2 | rfl
    · have hne : n ≠ i := by omega
      have h1 : (List.filter (fun j => decide (j ≠ i)) [n]).length = 1 := by
        simp [List.filter, hne]
      rw [List.length_append, ih h2, h1]
      omega
    · have hall : (List.range i).filter (fun j => decide (j ≠ i)) = List.range i := by
        rw [List.filter_eq_self]
        intro a ha
        simp only [decide_eq_true_eq]
        exact Nat.ne_of_lt (List.mem_range.mp ha)
      have h0 : (List.filter (fun j => decide (j ≠ i)) [i]).length = 0 := by simp
      rw [List.length_append, hall, h0, List.length_range]
      omega

theorem length_orderedIndexPairs (k : ℕ) :
    (orderedIndexPairs k).length = k * (k - 1) := by
  unfold orderedIndexPairs
  rw [List.length_flatMap]
  have hcongr : List.map (List.length ∘ fun i =>
      ((List.range k).filter (fun j => decide (j ≠ i))).map fun j => (i, j)) (List.range k)
      = List.map (fun _ => k - 1) (List.range k) := by
    apply List.map_congr_left
    intro i hi
    simp only [Function.comp_apply, List.length_map]
    exact length_filter_ne_of_lt (List.mem_range.mp hi)
  rw [hcongr, List.map_const', List.length_range, List.sum_replicate, smul_eq_mul]

theorem mem_orderedIndexPairs {k i j : ℕ} (hi : i < k) (hj : j < k) (hij : i ≠ j) :
    (i, j) ∈ orderedIndexPairs k := by
  unfold orderedIndexPairs
  refine List.mem_flatMap.mpr ⟨i, List.mem_range.mpr hi, ?_⟩
  refine List.mem_map.mpr ⟨j, ?_, rfl⟩
  rw [List.mem_filter]
  refine ⟨List.mem_range.mpr hj, ?_⟩
  simpa using hij.symm

theorem mem_findOpportunities_of {gas : ChainId → Option ℚ}
    {matrix : List (String × List PriceSource)} {sym : String}
    {sources : List PriceSource} {i j : ℕ} {opp : ArbitrageOpportunity}
    (hm : (sym, sources) ∈ matrix) (hi : i < sources.length) (hj : j < sources.length)
    (hij : i ≠ j)
    (he : evaluatePair gas sym (sources.getD i default) (sources.getD j default) = some opp) :
    opp ∈ findOpportunities gas matrix := by
  have hk : ¬ sources.length < 2 := by omega
  unfold findOpportunities
  rw [mem_sortByNetDesc]
  refine List.mem_flatMap.mpr ⟨(sym, sources), hm, ?_⟩
  show opp ∈ entryOpportunities gas sym sources
  unfold entryOpportunities
  rw [if_neg hk]
  exact List.mem_filterMap.mpr ⟨(i, j), mem_orderedIndexPairs hi hj hij, he⟩

/-- C7 (amended): for every matrix entry with k sources the enumerator visits
exactly k·(k−1) ordered index pairs, and every ordered (buy, sell) pair whose
effective prices exceed 10⁻⁶, whose spread lies in (0, 100], and whose net
profit meets the minimum-profit threshold appears in the returned list. The
original claim, without the spread-window condition, fails: a pair with spread
above 100 % is discarded as a data anomaly even when its net profit clears the
threshold (see the counterexample). -/
theorem enumeration_count_and_completeness (gas : ChainId → Option ℚ)
    (matrix : List (String × List PriceSource)) (sym : String)
    (sources : List PriceSource) (hm : (sym, sources) ∈ matrix) :
    (orderedIndexPairs sources.length).length = sources.length * (sources.length - 1) ∧
    (∀ i j : ℕ, i < sources.length → j < sources.length → i ≠ j →
      1 / 1000000 < effBuyPrice (sources.getD i default) →
      1 / 1000000 < effSellPrice (sources.getD j default) →
      0 < pairSpreadPct (sources.getD i default) (sources.getD j default) →
      pairSpreadPct (sources.getD i default) (sources.getD j default) ≤ 100 →
      MIN_PROFIT_USD ≤ pairNetProfit gas (sources.getD i default) (sources.getD j default) →
      mkOpportunity gas sym (sources.getD i default) (sources.getD j default) ∈
        findOpportunities gas matrix) := by
  refine ⟨length_orderedIndexPairs _, ?_⟩
  intro i j hi hj hij h1 h2 h3 h4 h5
  have he : evaluatePair gas sym (sources.getD i default) (sources.getD j default) =
      some (mkOpportunity gas sym (sources.getD i default) (sources.getD j default)) := by
    unfold evaluatePair
    rw [if_neg (by push_neg; exact ⟨h1, h2⟩), if_neg (by push_neg; exact ⟨h3, h4⟩),
      if_neg (not_lt.mpr h5)]
  exact mem_findOpportunities_of hm hi hj hij he

set_option maxHeartbeats 1000000 in
/-- C7 counterexample: a two-quote symbol whose ordered pair has net profit
far above the 5 USD threshold but a spread above 100 %, so the returned
opportunity list is empty — the pair is not present, refuting the claim as
stated. -/
theorem high_spread_profitable_pair_dropped :
    MIN_PROFIT_USD ≤ pairNetProfit (fun _ => none) srcLow srcHigh ∧
    100 < pairSpreadPct srcLow srcHigh ∧
    findOpportunities (fun _ => none) [("X/USDT", [srcLow, srcHigh])] = [] := by
  have hpairs : orderedIndexPairs 2 = [(0, 1), (1, 0)] := by decide
  refine ⟨?_, ?_, ?_⟩
  · norm_num +decide [pairNetProfit, pairSpreadPct, effBuyPrice, effSellPrice,
      calculateSlippagePrice, lowerName, srcLow, srcHigh, estimateGasCost,
      estimateWithdrawalFee, dexSideGas, cexSideFee, DEFAULT_TRADE_SIZE_USD,
      MIN_PROFIT_USD, getWithdrawalFee]
  · norm_num +decide [pairSpreadPct, effBuyPrice, effSellPrice, calculateSlippagePrice,
      lowerName, srcLow, srcHigh]
  · norm_num +decide [findOpportunities, sortByNetDesc, entryOpportunities, hpairs,
      evaluatePair, pairSpreadPct, effBuyPrice, effSellPrice, calculateSlippagePrice,
      lowerName, srcLow, srcHigh, List.getD, insertByNetDesc]

set_option maxHeartbeats 1000000 in
/-- C7 witness: a two-source entry (1/1 against 1.1/1.1) passes every guard;
the theorem places its pair in the output and counts 2·1 ordered pairs. -/
theorem enumeration_count_and_completeness_witness :
    (orderedIndexPairs ([srcLow, srcSell] : List PriceSource).length).length =
      ([srcLow, srcSell] : List PriceSource).length *
        (([srcLow, srcSell] : List PriceSource).length - 1) ∧
    mkOpportunity (fun _ => none) "X/USDT" srcLow srcSell ∈
      findOpportunities (fun _ => none) [("X/USDT", [srcLow, srcSell])] := by
  have h := enumeration_count_and_completeness (fun _ => none)
    [("X/USDT", [srcLow, srcSell])] "X/USDT" [srcLow, srcSell] (by simp)
  refine ⟨h.1, ?_⟩
  exact h.2 0 1 (by norm_num) (by norm_num) (by norm_num)
    (by norm_num +decide [effBuyPrice, calculateSlippagePrice, lowerName, srcLow,
      List.getD])
    (by norm_num +decide [effSellPrice, calculateSlippagePrice, lowerName, srcSell,
      List.getD])
    (by norm_num +decide [pairSpreadPct, effBuyPrice, effSellPrice,
      calculateSlippagePrice, lowerName, srcLow, srcSell, List.getD])
    (by norm_num +decide [pairSpreadPct, effBuyPrice, effSellPrice,
      calculateSlippagePrice, lowerName, srcLow, srcSell, List.getD])
    (by norm_num +decide [pairNetProfit, pairSpreadPct, effBuyPrice, effSellPrice,
      calculateSlippagePrice, lowerName, srcLow, srcSell, List.getD, estimateGasCost,
      estimateWithdrawalFee, dexSideGas, cexSideFee, DEFAULT_TRADE_SIZE_USD,
      MIN_PROFIT_USD, getWithdrawalFee])

/-- C9: the emission filter requires net ≥ MIN_PROFIT_USD = 5, which equals
the lowest threshold of the PROFIT_LEVELS table, so every opportunity
`_find_opportunities` returns carries a non-None profit level. -/
theorem emitted_opportunities_have_profit_level :
    MIN_PROFIT_USD = 5 ∧
    (PROFIT_LEVELS.map fun level => level.threshold) = [50, 20, 5] ∧
    (∀ (gas : ChainId → Option ℚ) (matrix : List (String × List PriceSource))
      (opp : ArbitrageOpportunity), opp ∈ findOpportunities gas matrix →
      opp.profitLevel ≠ none) := by
  refine ⟨rfl, rfl, ?_⟩
  intro gas matrix opp h
  unfold findOpportunities at h
  rw [mem_sortByNetDesc] at h
  obtain ⟨e, _, h⟩ := List.mem_flatMap.mp h
  unfold entryOpportunities at h
  split at h
  · simp at h
  · obtain ⟨ij, _, he⟩ := List.mem_filterMap.mp h
    exact evaluatePair_profitLevel he

set_option maxHeartbeats 1000000 in
/-- C9 witness: a concrete emitted opportunity has a profit level. -/
theorem emitted_opportunities_have_profit_level_witness :
    mkOpportunity (fun _ => none) "Y/USDT" srcE srcF ∈
      findOpportunities (fun _ => none) [("Y/USDT", [srcE, srcF])] ∧
    (mkOpportunity (fun _ => none) "Y/USDT" srcE srcF).profitLevel ≠ none := by
  have he : evaluatePair (fun _ => none) "Y/USDT" srcE srcF =
      some (mkOpportunity (fun _ => none) "Y/USDT" srcE srcF) := by
    unfold evaluatePair
    rw [if_neg ?g1, if_neg ?g2, if_neg ?g3]
    case g1 =>
      push_neg
      constructor <;> norm_num +decide [effBuyPrice, effSellPrice,
        calculateSlippagePrice, lowerName, srcE, srcF]
    case g2 =>
      push_neg
      constructor <;> norm_num +decide [pairSpreadPct, effBuyPrice, effSellPrice,
        calculateSlippagePrice, lowerName, srcE, srcF]
    case g3 =>
      rw [not_lt]
      norm_num +decide [pairNetProfit, pairSpreadPct, effBuyPrice, effSellPrice,
        calculateSlippagePrice, lowerName, srcE, srcF, estimateGasCost,
        estimateWithdrawalFee, dexSideGas, cexSideFee, DEFAULT_TRADE_SIZE_USD,
        MIN_PROFIT_USD, getWithdrawalFee]
  have hmem : mkOpportunity (fun _ => none) "Y/USDT" srcE srcF ∈
      findOpportunities (fun _ => none) [("Y/USDT", [srcE, srcF])] :=
    @mem_findOpportunities_of (fun _ => none) [("Y/USDT", [srcE, srcF])] "Y/USDT"
      [srcE, srcF] 0 1 (mkOpportunity (fun _ => none) "Y/USDT" srcE srcF)
      (by simp) (by norm_num) (by norm_num) (by norm_num) he
  exact ⟨hmem, emitted_opportunities_have_profit_level.2.2 _ _ _ hmem⟩

end HFT
